import Mathlib

/-!
SerialConnection (src/core/serial_connection.cpp)

A shallow embedding of the POSIX build (`LINUX` and `APPLE` branches of the
preprocessor conditionals) of `mavsdk::SerialConnection`.

* Member functions become pure functions on the record `SerialConnection`
  (the data members of the object).  Every call into the operating system,
  the thread library or the `Connection` base class is recorded as an
  `Event`; the value such a call returns is an input of the function.
* `World` replays a list of events and keeps the descriptors that were
  opened and not closed and the threads that were created and not joined.
* The receive loop talks to the framer through the three member functions
  it calls (`set_new_datagram`, `parse_message`, `get_last_message`); the
  framer itself is a parameter.

The `WINDOWS` branch (`CreateFile`, `WriteFile`, `ReadFile`) is not embedded.
-/

namespace mavsdk

/-! ## Data model -/

/-- One octet of the serial stream (`char` / `uint8_t`). -/
abbrev Byte := Nat

/-- The enumerators of `ConnectionResult` that `serial_connection.cpp` returns. -/
inductive ConnectionResult where
  | SUCCESS
  | CONNECTION_ERROR
  | CONNECTIONS_EXHAUSTED
  | BAUDRATE_UNKNOWN
  deriving DecidableEq, Repr

/-- The two POSIX build configurations of the file. -/
inductive Platform where
  | LINUX
  | APPLE
  deriving DecidableEq, Repr

/-- The line-speed constants of `<termios.h>` that `define_from_baudrate`
returns.  The header is a system header, so the values are a parameter. -/
structure SpeedTokens where
  B9600 : Int
  B19200 : Int
  B38400 : Int
  B57600 : Int
  B115200 : Int
  B230400 : Int
  B460800 : Int
  B500000 : Int
  B576000 : Int
  B921600 : Int
  B1000000 : Int
  B1152000 : Int
  B1500000 : Int
  B2000000 : Int
  B2500000 : Int
  B3000000 : Int
  B3500000 : Int
  B4000000 : Int

/-- The values the constants have in the Linux headers (octal `0000015`,
`0000016`, `0000017`, `0010001` ... `0010017`). -/
def linux_tokens : SpeedTokens where
  B9600 := 13
  B19200 := 14
  B38400 := 15
  B57600 := 4097
  B115200 := 4098
  B230400 := 4099
  B460800 := 4100
  B500000 := 4101
  B576000 := 4102
  B921600 := 4103
  B1000000 := 4104
  B1152000 := 4105
  B1500000 := 4106
  B2000000 := 4107
  B2500000 := 4108
  B3000000 := 4109
  B3500000 := 4110
  B4000000 := 4111

/-- All eighteen constants as a list, in the order of the `switch`. -/
def SpeedTokens.toList (T : SpeedTokens) : List Int :=
  [T.B9600, T.B19200, T.B38400, T.B57600, T.B115200, T.B230400, T.B460800,
   T.B500000, T.B576000, T.B921600, T.B1000000, T.B1152000, T.B1500000,
   T.B2000000, T.B2500000, T.B3000000, T.B3500000, T.B4000000]

/-- No line-speed constant collides with the error value `-1`. -/
def SpeedTokens.valid (T : SpeedTokens) : Prop :=
  ∀ t ∈ T.toList, t ≠ -1

/-- The baud rates that have a `case` label in `define_from_baudrate`. -/
def supported_baudrates : List Int :=
  [9600, 19200, 38400, 57600, 115200, 230400, 460800, 500000, 576000, 921600,
   1000000, 1152000, 1500000, 2000000, 2500000, 3000000, 3500000, 4000000]

/-- Embeds `SerialConnection::define_from_baudrate` (LINUX only). -/
def define_from_baudrate (T : SpeedTokens) (baudrate : Int) : Int :=
  if baudrate = 9600 then T.B9600
  else if baudrate = 19200 then T.B19200
  else if baudrate = 38400 then T.B38400
  else if baudrate = 57600 then T.B57600
  else if baudrate = 115200 then T.B115200
  else if baudrate = 230400 then T.B230400
  else if baudrate = 460800 then T.B460800
  else if baudrate = 500000 then T.B500000
  else if baudrate = 576000 then T.B576000
  else if baudrate = 921600 then T.B921600
  else if baudrate = 1000000 then T.B1000000
  else if baudrate = 1152000 then T.B1152000
  else if baudrate = 1500000 then T.B1500000
  else if baudrate = 2000000 then T.B2000000
  else if baudrate = 2500000 then T.B2500000
  else if baudrate = 3000000 then T.B3000000
  else if baudrate = 3500000 then T.B3500000
  else if baudrate = 4000000 then T.B4000000
  else -1

/-! ## The connection object and its environment -/

/-- The data members of `SerialConnection` (POSIX build).  `_recv_thread` is
`none` for `nullptr` and `some t` for a pointer to the thread `t`;
`_mavlink_receiver` tells whether the receiver owned by the `Connection`
base class exists. -/
structure SerialConnection where
  _serial_node : String
  _baudrate : Int
  _fd : Int
  _recv_thread : Option Nat
  _should_exit : Bool
  _mavlink_receiver : Bool
  deriving DecidableEq, Repr

/-- Calls that leave `serial_connection.cpp`, with their arguments and, for
`open`, the value returned. -/
inductive Event where
  | start_mavlink_receiver
  | os_open (path : String) (o_nonblock : Bool) (ret : Int)
  | os_fcntl (fd : Int)
  | os_tcgetattr (fd : Int)
  | os_cfsetispeed (speed : Int)
  | os_cfsetospeed (speed : Int)
  | os_tcsetattr (fd : Int)
  | os_close (fd : Int)
  | os_write (fd : Int) (buffer : List Byte) (count : Nat)
  | thread_new (t : Nat)
  | thread_join (t : Nat)
  | store_should_exit
  | stop_mavlink_receiver
  deriving DecidableEq, Repr

/-- What a member function leaves behind: the value it returns, the object
after the call and the calls it made, oldest first. -/
structure Outcome (ρ : Type) where
  ret : ρ
  conn : SerialConnection
  trace : List Event

/-- Values the operating system returns to one run of `setup_port`. -/
structure PortEnv where
  open_ret : Int
  fcntl_ret : Int
  tcgetattr_ret : Int
  cfsetispeed_ret : Int
  cfsetospeed_ret : Int
  tcsetattr_ret : Int

/-- Everything one run of `start` receives from outside: whether a MAVLink
channel was free, the answers of the operating system and the thread that
`new std::thread` creates. -/
structure StartEnv where
  receiver_ok : Bool
  port : PortEnv
  new_thread : Nat

/-- Modelled from the spec: the in-class initialisers of `serial_connection.h`,
which is not among the sources.  A connection is "created with path+baud (no
I/O yet)": no descriptor, no thread, termination flag clear, no receiver. -/
def SerialConnection.create (path : String) (baudrate : Int) : SerialConnection where
  _serial_node := path
  _baudrate := baudrate
  _fd := -1
  _recv_thread := none
  _should_exit := false
  _mavlink_receiver := false

/-- Modelled from the spec: `Connection::start_mavlink_receiver` of
connection.cpp, which is not among the sources.  It attaches the framer to
the connection and reports whether that worked; `ok` is the answer. -/
def start_mavlink_receiver (c : SerialConnection) (ok : Bool) : Outcome Bool where
  ret := ok
  conn := if ok then { c with _mavlink_receiver := true } else c
  trace := [Event.start_mavlink_receiver]

/-- Modelled from the spec: `Connection::stop_mavlink_receiver` of
connection.cpp, which is not among the sources.  It "tears down the
Framer/MessageSink association". -/
def stop_mavlink_receiver (c : SerialConnection) : Outcome Unit where
  ret := ()
  conn := { c with _mavlink_receiver := false }
  trace := [Event.stop_mavlink_receiver]

/-! ## Member functions -/

/-- Embeds `SerialConnection::setup_port`, LINUX and APPLE branches.  The bit
operations on the `termios` flags between `tcgetattr` and the baud-rate
resolution call nothing and cannot fail; they are left out. -/
def setup_port (p : Platform) (T : SpeedTokens) (c : SerialConnection) (env : PortEnv) :
    Outcome ConnectionResult :=
  let c1 := { c with _fd := env.open_ret }
  let t1 := [Event.os_open c._serial_node (p = Platform.APPLE) env.open_ret]
  if c1._fd = -1 then
    ⟨ConnectionResult.CONNECTION_ERROR, c1, t1⟩
  else if p = Platform.APPLE ∧ env.fcntl_ret = -1 then
    ⟨ConnectionResult.CONNECTION_ERROR, c1, t1 ++ [Event.os_fcntl c1._fd]⟩
  else
    let t2 := if p = Platform.APPLE then t1 ++ [Event.os_fcntl c1._fd] else t1
    let t3 := t2 ++ [Event.os_tcgetattr c1._fd]
    if env.tcgetattr_ret ≠ 0 then
      ⟨ConnectionResult.CONNECTION_ERROR, c1, t3 ++ [Event.os_close c1._fd]⟩
    else
      let baudrate_or_define :=
        match p with
        | Platform.LINUX => define_from_baudrate T c1._baudrate
        | Platform.APPLE => c1._baudrate
      if baudrate_or_define = -1 then
        ⟨ConnectionResult.BAUDRATE_UNKNOWN, c1, t3⟩
      else
        let t4 := t3 ++ [Event.os_cfsetispeed baudrate_or_define]
        if env.cfsetispeed_ret ≠ 0 then
          ⟨ConnectionResult.CONNECTION_ERROR, c1, t4 ++ [Event.os_close c1._fd]⟩
        else
          let t5 := t4 ++ [Event.os_cfsetospeed baudrate_or_define]
          if env.cfsetospeed_ret ≠ 0 then
            ⟨ConnectionResult.CONNECTION_ERROR, c1, t5 ++ [Event.os_close c1._fd]⟩
          else
            let t6 := t5 ++ [Event.os_tcsetattr c1._fd]
            if env.tcsetattr_ret ≠ 0 then
              ⟨ConnectionResult.CONNECTION_ERROR, c1, t6 ++ [Event.os_close c1._fd]⟩
            else
              ⟨ConnectionResult.SUCCESS, c1, t6⟩

/-- Embeds `SerialConnection::start_recv_thread`; `t` is the thread that
`new std::thread` creates. -/
def start_recv_thread (c : SerialConnection) (t : Nat) : Outcome Unit where
  ret := ()
  conn := { c with _recv_thread := some t }
  trace := [Event.thread_new t]

/-- Embeds `SerialConnection::start`. -/
def start (p : Platform) (T : SpeedTokens) (c : SerialConnection) (env : StartEnv) :
    Outcome ConnectionResult :=
  let r1 := start_mavlink_receiver c env.receiver_ok
  if !r1.ret then
    ⟨ConnectionResult.CONNECTIONS_EXHAUSTED, r1.conn, r1.trace⟩
  else
    let r2 := setup_port p T r1.conn env.port
    if r2.ret ≠ ConnectionResult.SUCCESS then
      ⟨r2.ret, r2.conn, r1.trace ++ r2.trace⟩
    else
      let r3 := start_recv_thread r2.conn env.new_thread
      ⟨ConnectionResult.SUCCESS, r3.conn, r1.trace ++ r2.trace ++ r3.trace⟩

/-- Embeds `SerialConnection::stop`. -/
def stop (c : SerialConnection) : Outcome ConnectionResult :=
  let c1 := { c with _should_exit := true }
  let t1 := [Event.store_should_exit, Event.os_close c1._fd]
  let c2 := { c1 with _recv_thread := none }
  let t2 :=
    match c1._recv_thread with
    | some t => t1 ++ [Event.thread_join t]
    | none => t1
  let r3 := stop_mavlink_receiver c2
  ⟨ConnectionResult.SUCCESS, r3.conn, t2 ++ r3.trace⟩

/-- The conversion `static_cast<int>(x)` of a wider signed value to the
32-bit `int`. -/
def static_cast_int (x : Int) : Int :=
  (x + 2147483648) % 4294967296 - 2147483648

/-- Embeds `SerialConnection::send_message`, POSIX branch.  The parameter
`mavlink_msg_to_send_buffer` is the serialiser of the MAVLink library: the
bytes it stores in `buffer`; its `uint16_t` result is their number.
`write_ret` is what `write` returns. -/
def send_message {μ : Type} (mavlink_msg_to_send_buffer : μ → List Byte)
    (c : SerialConnection) (message : μ) (write_ret : Int) : Outcome Bool :=
  if c._serial_node = "" then
    ⟨false, c, []⟩
  else if c._baudrate = 0 then
    ⟨false, c, []⟩
  else
    let buffer := mavlink_msg_to_send_buffer message
    let buffer_len : Nat := buffer.length % 65536
    let send_len : Int := static_cast_int write_ret
    let t := [Event.os_write c._fd buffer buffer_len]
    if send_len ≠ (buffer_len : Int) then
      ⟨false, c, t⟩
    else
      ⟨true, c, t⟩

/-! ## The receive loop -/

/-- The part of `MAVLinkReceiver` that `receive` calls, over a receiver
state `σ` and a message type `μ`.  `set_new_datagram` gets the buffer and
the length exactly as the loop passes them; `parse_message` answers whether
a further message is ready. -/
structure MAVLinkReceiver (σ μ : Type) where
  set_new_datagram : σ → List Byte → Int → σ
  parse_message : σ → Bool × σ
  get_last_message : σ → μ

/-- One return of `read(_fd, buffer, sizeof(buffer))`: the value returned
and the bytes stored at the start of `buffer`. -/
structure ReadResult where
  ret : Int
  data : List Byte

/-- The locals of `receive` together with what it has done so far:
`fed` lists the arguments of the `set_new_datagram` calls and `delivered`
the arguments of the `receive_message` calls, oldest first. -/
structure RecvState (σ μ : Type) where
  receiver : σ
  buffer : List Byte
  fed : List (List Byte × Int)
  delivered : List μ

/-- The capacity `sizeof(buffer)` of `char buffer[2048]`. -/
def BUFFER_SIZE : Int := 2048

/-- The inner loop `while (parse_message()) receive_message(get_last_message())`.
It yields the receiver state once `parse_message` answers `false`, with the
messages handed to `receive_message`; `none` when the fuel runs out. -/
def parse_loop {σ μ : Type} (R : MAVLinkReceiver σ μ) : Nat → σ → Option (σ × List μ)
  | 0, _ => none
  | fuel + 1, st =>
    match R.parse_message st with
    | (false, st1) => some (st1, [])
    | (true, st1) =>
      match parse_loop R fuel st1 with
      | none => none
      | some (st2, ms) => some (st2, R.get_last_message st1 :: ms)

/-- The body of `while (!_should_exit)` in `receive` (POSIX branch) for one
return `r` of `read`.  The log line under `recv_len < -1` changes nothing and
is left out. -/
def receive_iteration {σ μ : Type} (R : MAVLinkReceiver σ μ) (fuel : Nat)
    (s : RecvState σ μ) (r : ReadResult) : Option (RecvState σ μ) :=
  let buffer := r.data ++ s.buffer.drop r.data.length
  let recv_len := static_cast_int r.ret
  if recv_len > BUFFER_SIZE ∨ recv_len = 0 then
    some { s with buffer := buffer }
  else
    match parse_loop R fuel (R.set_new_datagram s.receiver buffer recv_len) with
    | none => none
    | some (st, ms) =>
      some { receiver := st, buffer := buffer,
             fed := s.fed ++ [(buffer, recv_len)], delivered := s.delivered ++ ms }

/-- Embeds `SerialConnection::receive`: one iteration for every return of `read`
that happens before `_should_exit` is seen set. -/
def receive {σ μ : Type} (R : MAVLinkReceiver σ μ) (fuel : Nat) :
    RecvState σ μ → List ReadResult → Option (RecvState σ μ)
  | s, [] => some s
  | s, r :: rs =>
    match receive_iteration R fuel s r with
    | none => none
    | some s1 => receive R fuel s1 rs

/-- The state in which `receive` starts: nothing fed, nothing delivered. -/
def RecvState.init {σ μ : Type} (st : σ) (buffer : List Byte) : RecvState σ μ where
  receiver := st
  buffer := buffer
  fed := []
  delivered := []

/-- The bytes a `set_new_datagram` call makes visible: the first `len`
bytes of the buffer. -/
def chunk_of (call : List Byte × Int) : List Byte :=
  call.1.take call.2.toNat

/-- The framer yields the messages `ms` and ends in `st1`: `parse_message`
answers `true` once for each of them and then `false`. -/
inductive Yields {σ μ : Type} (R : MAVLinkReceiver σ μ) : σ → List μ → σ → Prop where
  | done (st st1 : σ) (h : R.parse_message st = (false, st1)) : Yields R st [] st1
  | more (st st1 st2 : σ) (ms : List μ) (h : R.parse_message st = (true, st1))
      (rest : Yields R st1 ms st2) : Yields R st (R.get_last_message st1 :: ms) st2

/-- Feeding the framer the datagrams `calls` one after the other, draining
it after each, yields the message groups `yss` and ends in `st1`. -/
inductive YieldsAll {σ μ : Type} (R : MAVLinkReceiver σ μ) :
    σ → List (List Byte × Int) → List (List μ) → σ → Prop where
  | nil (st : σ) : YieldsAll R st [] [] st
  | cons (st st1 st2 : σ) (call : List Byte × Int) (calls : List (List Byte × Int))
      (ms : List μ) (yss : List (List μ))
      (first : Yields R (R.set_new_datagram st call.1 call.2) ms st1)
      (rest : YieldsAll R st1 calls yss st2) : YieldsAll R st (call :: calls) (ms :: yss) st2

/-! ## An example framer -/

/-- A frame parser that is fed one byte at a time, keeps what it has seen of
an unfinished frame in its state `π`, and answers with the message a byte
completes, if it completes one. -/
structure CharParser (π μ : Type) where
  parse_char : π → Byte → π × Option μ

/-- State of the framer built on a `CharParser`: the parser state, the bytes
of the current datagram that are still unparsed, and the last message. -/
structure StreamState (π μ : Type) where
  status : π
  datagram : List Byte
  last_message : μ

/-- Feed bytes to the parser up to the first one that completes a message;
answers that message, the parser state and the bytes left over. -/
def scan {π μ : Type} (P : CharParser π μ) : π → List Byte → Option μ × π × List Byte
  | st, [] => (none, st, [])
  | st, b :: bs =>
    match P.parse_char st b with
    | (st1, some m) => (some m, st1, bs)
    | (st1, none) => scan P st1 bs

/-- The framer built on a `CharParser`.  `set_new_datagram` reads its length
argument as an unsigned 32-bit number and keeps the parser state;
`parse_message` parses up to the next complete message and drops the
datagram once it is exhausted. -/
def stream_framer {π μ : Type} (P : CharParser π μ) : MAVLinkReceiver (StreamState π μ) μ where
  set_new_datagram st buffer len :=
    { st with datagram := buffer.take (len % 4294967296).toNat }
  parse_message st :=
    match scan P st.status st.datagram with
    | (some m, st1, rest) => (true, { status := st1, datagram := rest, last_message := m })
    | (none, st1, _) => (false, { st with status := st1, datagram := [] })
  get_last_message st := st.last_message

/-- The messages a `CharParser` finds in a byte stream, in stream order. -/
def decode {π μ : Type} (P : CharParser π μ) : π → List Byte → List μ
  | _, [] => []
  | st, b :: bs =>
    match P.parse_char st b with
    | (st1, some m) => m :: decode P st1 bs
    | (st1, none) => decode P st1 bs

/-- The state of a `CharParser` after a byte stream. -/
def final_status {π μ : Type} (P : CharParser π μ) : π → List Byte → π
  | st, [] => st
  | st, b :: bs => final_status P (P.parse_char st b).1 bs

/-- An example frame format: a length byte `n`, then `n` payload bytes; the
message is the payload.  The state is the number of payload bytes still
missing and the payload so far, or `none` between frames. -/
def length_framed : CharParser (Option (Nat × List Byte)) (List Byte) where
  parse_char st b :=
    match st with
    | none => if b = 0 then (none, some []) else (some (b, []), none)
    | some (n, acc) =>
      if n ≤ 1 then (none, some (acc ++ [b])) else (some (n - 1, acc ++ [b]), none)

/-- Whether a return of `read` is a chunk of 1 to 2048 bytes. -/
def ReadResult.is_chunk (r : ReadResult) : Prop :=
  1 ≤ r.ret ∧ r.ret ≤ 2048 ∧ (r.data.length : Int) = r.ret

/-- The bytes of all reads, in read order. -/
def stream_of (reads : List ReadResult) : List Byte :=
  (reads.map fun r => r.data).flatten

/-! ## Descriptors and threads held by a connection -/

/-- The descriptors `open` returned that were not closed since, and the
threads created that were not joined since. -/
structure World where
  open_fds : List Int
  live_threads : List Nat
  deriving DecidableEq, Repr

/-- The effect of one call on the descriptors and threads. -/
def World.step (w : World) : Event → World
  | Event.os_open _ _ ret => if ret = -1 then w else { w with open_fds := ret :: w.open_fds }
  | Event.os_close fd => { w with open_fds := w.open_fds.erase fd }
  | Event.thread_new t => { w with live_threads := t :: w.live_threads }
  | Event.thread_join t => { w with live_threads := w.live_threads.erase t }
  | _ => w

/-- The effect of a trace, oldest call first. -/
def World.replay (w : World) (trace : List Event) : World :=
  trace.foldl World.step w

/-- No descriptor, no thread. -/
def World.empty : World where
  open_fds := []
  live_threads := []

/-- A call of a public member function together with what the environment
answers during that call. -/
inductive Call (μ : Type) where
  | start (env : StartEnv)
  | send_message (message : μ) (write_ret : Int)
  | stop

/-- One public call on a connection and the descriptors and threads it holds. -/
def run_call {μ : Type} (p : Platform) (T : SpeedTokens) (ser : μ → List Byte)
    (s : SerialConnection × World) : Call μ → SerialConnection × World
  | Call.start env => ((start p T s.1 env).conn, s.2.replay (start p T s.1 env).trace)
  | Call.send_message m w =>
    ((send_message ser s.1 m w).conn, s.2.replay (send_message ser s.1 m w).trace)
  | Call.stop => ((stop s.1).conn, s.2.replay (stop s.1).trace)

/-- A sequence of public calls, first call first. -/
def run_calls {μ : Type} (p : Platform) (T : SpeedTokens) (ser : μ → List Byte)
    (s : SerialConnection × World) (calls : List (Call μ)) : SerialConnection × World :=
  calls.foldl (run_call p T ser) s

/-- No `start()` is called again before a `stop()`: `started` tells whether
a `start()` has been called since the last `stop()`. -/
def starts_separated {μ : Type} : Bool → List (Call μ) → Bool
  | _, [] => true
  | started, Call.start _ :: cs => !started && starts_separated true cs
  | started, Call.send_message _ _ :: cs => starts_separated started cs
  | _, Call.stop :: cs => starts_separated false cs

/-- Whether a trace creates a thread. -/
def launches_thread (trace : List Event) : Bool :=
  trace.any fun e => match e with
    | Event.thread_new _ => true
    | _ => false

/-- Whether a trace opens a device. -/
def attempts_open (trace : List Event) : Bool :=
  trace.any fun e => match e with
    | Event.os_open _ _ _ => true
    | _ => false

/-- Whether a trace closes the descriptor `fd`. -/
def closes (fd : Int) (trace : List Event) : Bool :=
  trace.any fun e => e = Event.os_close fd

/-- Whether a trace joins a thread. -/
def joins_thread (trace : List Event) : Bool :=
  trace.any fun e => match e with
    | Event.thread_join _ => true
    | _ => false

/-- The connection holds nothing. -/
def Clean (s : SerialConnection × World) : Prop :=
  s.2.open_fds = [] ∧ s.2.live_threads = []

/-- The only descriptor the connection can hold is `_fd` and the only thread
is the one `_recv_thread` points to. -/
def Held (s : SerialConnection × World) : Prop :=
  (s.2.open_fds = [] ∨ s.2.open_fds = [s.1._fd]) ∧
  (s.2.live_threads = [] ∨ s.2.live_threads = s.1._recv_thread.toList)

/-! ## Theorems -/

/-- An unlisted baud rate falls through to the `default` label. -/
theorem define_from_baudrate_default (T : SpeedTokens) (b : Int)
    (h : b ∉ supported_baudrates) : define_from_baudrate T b = -1 := by
  simp only [supported_baudrates, List.mem_cons, List.not_mem_nil, or_false, not_or] at h
  obtain ⟨h1, h2, h3, h4, h5, h6, h7, h8, h9, h10, h11, h12, h13, h14, h15, h16, h17, h18⟩ := h
  simp only [define_from_baudrate, if_neg h1, if_neg h2, if_neg h3, if_neg h4, if_neg h5,
    if_neg h6, if_neg h7, if_neg h8, if_neg h9, if_neg h10, if_neg h11, if_neg h12,
    if_neg h13, if_neg h14, if_neg h15, if_neg h16, if_neg h17, if_neg h18]

/-- A listed baud rate is mapped to one of the line-speed constants. -/
theorem define_from_baudrate_token (T : SpeedTokens) (b : Int)
    (h : b ∈ supported_baudrates) : define_from_baudrate T b ∈ T.toList := by
  simp only [supported_baudrates, List.mem_cons, List.not_mem_nil, or_false] at h
  rcases h with h | h | h | h | h | h | h | h | h | h | h | h | h | h | h | h | h | h <;>
    subst h <;> simp [define_from_baudrate, SpeedTokens.toList]

/-- C1: with line-speed constants that differ from `-1`,
`define_from_baudrate b` differs from `-1` exactly for the eighteen listed
baud rates, and every other `b` gives `-1`. -/
theorem define_from_baudrate_supported (T : SpeedTokens) (hT : T.valid) (b : Int) :
    (define_from_baudrate T b ≠ -1 ↔ b ∈ supported_baudrates) ∧
    (b ∉ supported_baudrates → define_from_baudrate T b = -1) := by
  refine ⟨⟨fun h => ?_, fun h => hT _ (define_from_baudrate_token T b h)⟩,
    define_from_baudrate_default T b⟩
  by_contra hn
  exact h (define_from_baudrate_default T b hn)

/-- C1 at the Linux values of the constants: 57600 is mapped to a constant,
12345 to the error value. -/
theorem define_from_baudrate_supported_witness :
    linux_tokens.valid ∧ define_from_baudrate linux_tokens 57600 ≠ -1 ∧
    define_from_baudrate linux_tokens 12345 = -1 :=
  ⟨by unfold SpeedTokens.valid; decide,
   (define_from_baudrate_supported linux_tokens (by unfold SpeedTokens.valid; decide) 57600).1.2
     (by decide),
   (define_from_baudrate_supported linux_tokens (by unfold SpeedTokens.valid; decide) 12345).2
     (by decide)⟩

/-! ### `start` and `setup_port` -/

/-- On LINUX `setup_port` with an unlisted baud rate: the device is opened
first, and what comes back depends only on `open` and `tcgetattr`. -/
theorem setup_port_linux_unlisted (T : SpeedTokens) (c : SerialConnection) (env : PortEnv)
    (hb : c._baudrate ∉ supported_baudrates) :
    setup_port Platform.LINUX T c env =
      if env.open_ret = -1 then
        ⟨ConnectionResult.CONNECTION_ERROR, { c with _fd := env.open_ret },
          [Event.os_open c._serial_node false env.open_ret]⟩
      else if env.tcgetattr_ret ≠ 0 then
        ⟨ConnectionResult.CONNECTION_ERROR, { c with _fd := env.open_ret },
          [Event.os_open c._serial_node false env.open_ret, Event.os_tcgetattr env.open_ret,
           Event.os_close env.open_ret]⟩
      else
        ⟨ConnectionResult.BAUDRATE_UNKNOWN, { c with _fd := env.open_ret },
          [Event.os_open c._serial_node false env.open_ret, Event.os_tcgetattr env.open_ret]⟩ := by
  have hd : define_from_baudrate T c._baudrate = -1 := define_from_baudrate_default T _ hb
  unfold setup_port
  by_cases h1 : env.open_ret = -1
  · simp [h1]
  · by_cases h2 : env.tcgetattr_ret = 0
    · simp [h1, h2, hd]
    · simp [h1, h2]

/-- The three ways through `start`, in terms of the `setup_port` it calls. -/
theorem start_eq (p : Platform) (T : SpeedTokens) (c : SerialConnection) (env : StartEnv) :
    start p T c env =
      if env.receiver_ok = true then
        if (setup_port p T { c with _mavlink_receiver := true } env.port).ret
            = ConnectionResult.SUCCESS then
          ⟨ConnectionResult.SUCCESS,
            { (setup_port p T { c with _mavlink_receiver := true } env.port).conn with
              _recv_thread := some env.new_thread },
            Event.start_mavlink_receiver ::
              ((setup_port p T { c with _mavlink_receiver := true } env.port).trace ++
                [Event.thread_new env.new_thread])⟩
        else
          ⟨(setup_port p T { c with _mavlink_receiver := true } env.port).ret,
            (setup_port p T { c with _mavlink_receiver := true } env.port).conn,
            Event.start_mavlink_receiver ::
              (setup_port p T { c with _mavlink_receiver := true } env.port).trace⟩
      else
        ⟨ConnectionResult.CONNECTIONS_EXHAUSTED, c, [Event.start_mavlink_receiver]⟩ := by
  cases hr : env.receiver_ok with
  | false => simp [start, start_mavlink_receiver, hr]
  | true =>
    by_cases h : (setup_port p T { c with _mavlink_receiver := true } env.port).ret
        = ConnectionResult.SUCCESS
    · simp [start, start_mavlink_receiver, start_recv_thread, hr, h]
    · simp [start, start_mavlink_receiver, start_recv_thread, hr, h]

/-- C2, refuted as stated: with baud 12345 and a device that opens, `start()`
returns BAUDRATE_UNKNOWN after it has opened the device; and when the open
fails it returns CONNECTION_ERROR instead. -/
theorem start_unlisted_baud_opens_device :
    (start Platform.LINUX linux_tokens (SerialConnection.create "/dev/ttyFAKE" 12345)
        ⟨true, ⟨3, 0, 0, 0, 0, 0⟩, 1⟩).ret = ConnectionResult.BAUDRATE_UNKNOWN ∧
    attempts_open (start Platform.LINUX linux_tokens (SerialConnection.create "/dev/ttyFAKE" 12345)
        ⟨true, ⟨3, 0, 0, 0, 0, 0⟩, 1⟩).trace = true ∧
    (start Platform.LINUX linux_tokens (SerialConnection.create "/dev/ttyFAKE" 12345)
        ⟨true, ⟨-1, 0, 0, 0, 0, 0⟩, 1⟩).ret = ConnectionResult.CONNECTION_ERROR := by
  refine ⟨?_, ?_, ?_⟩ <;> decide

/-- C2, amended: on LINUX, for every device path and every unlisted baud rate,
`start()` never returns SUCCESS and creates no thread; it returns
BAUDRATE_UNKNOWN exactly when the receiver was attached and both `open` and
`tcgetattr` succeeded, and then the open of the device is the first call to
the operating system in its trace. -/
theorem start_unlisted_baud (T : SpeedTokens) (c : SerialConnection) (env : StartEnv)
    (hb : c._baudrate ∉ supported_baudrates) :
    (start Platform.LINUX T c env).ret ≠ ConnectionResult.SUCCESS ∧
    launches_thread (start Platform.LINUX T c env).trace = false ∧
    ((start Platform.LINUX T c env).ret = ConnectionResult.BAUDRATE_UNKNOWN ↔
      env.receiver_ok = true ∧ env.port.open_ret ≠ -1 ∧ env.port.tcgetattr_ret = 0) ∧
    ((start Platform.LINUX T c env).ret = ConnectionResult.BAUDRATE_UNKNOWN →
      ∃ rest, (start Platform.LINUX T c env).trace =
        Event.start_mavlink_receiver ::
          Event.os_open c._serial_node false env.port.open_ret :: rest) := by
  have hs := setup_port_linux_unlisted T { c with _mavlink_receiver := true } env.port hb
  rw [start_eq, hs]
  cases hr : env.receiver_ok with
  | false => simp [launches_thread]
  | true =>
    by_cases h1 : env.port.open_ret = -1
    · simp [h1, launches_thread]
    · by_cases h2 : env.port.tcgetattr_ret = 0
      · simp [h1, h2, launches_thread]
      · simp [h1, h2, launches_thread]

/-- C2 amended, at baud 12345 on a device that opens: BAUDRATE_UNKNOWN, no
thread, and the trace starts with the open. -/
theorem start_unlisted_baud_witness :
    (SerialConnection.create "/dev/ttyFAKE" 12345)._baudrate ∉ supported_baudrates ∧
    (start Platform.LINUX linux_tokens (SerialConnection.create "/dev/ttyFAKE" 12345)
        ⟨true, ⟨3, 0, 0, 0, 0, 0⟩, 1⟩).ret = ConnectionResult.BAUDRATE_UNKNOWN ∧
    launches_thread (start Platform.LINUX linux_tokens
        (SerialConnection.create "/dev/ttyFAKE" 12345) ⟨true, ⟨3, 0, 0, 0, 0, 0⟩, 1⟩).trace
      = false ∧
    ∃ rest, (start Platform.LINUX linux_tokens (SerialConnection.create "/dev/ttyFAKE" 12345)
        ⟨true, ⟨3, 0, 0, 0, 0, 0⟩, 1⟩).trace =
      Event.start_mavlink_receiver :: Event.os_open "/dev/ttyFAKE" false 3 :: rest :=
  have h := start_unlisted_baud linux_tokens (SerialConnection.create "/dev/ttyFAKE" 12345)
    ⟨true, ⟨3, 0, 0, 0, 0, 0⟩, 1⟩ (by decide)
  ⟨by decide, h.2.2.1.2 ⟨rfl, by decide, rfl⟩, h.2.1, h.2.2.2 (h.2.2.1.2 ⟨rfl, by decide, rfl⟩)⟩

/-- No thread is created by `setup_port`. -/
theorem setup_port_no_thread (p : Platform) (T : SpeedTokens) (c : SerialConnection)
    (env : PortEnv) : launches_thread (setup_port p T c env).trace = false := by
  unfold setup_port
  cases p <;> (simp only []; split_ifs <;> simp [launches_thread])

/-- The only member `setup_port` assigns is `_fd`. -/
theorem setup_port_conn (p : Platform) (T : SpeedTokens) (c : SerialConnection)
    (env : PortEnv) : (setup_port p T c env).conn = { c with _fd := env.open_ret } := by
  unfold setup_port
  cases p <;> (simp only []; split_ifs <;> rfl)

/-- A failed `open` makes `setup_port` return CONNECTION_ERROR at once. -/
theorem setup_port_open_failed (p : Platform) (T : SpeedTokens) (c : SerialConnection)
    (env : PortEnv) (h : env.open_ret = -1) :
    (setup_port p T c env).ret = ConnectionResult.CONNECTION_ERROR ∧
    (setup_port p T c env).trace = [Event.os_open c._serial_node (p = Platform.APPLE) (-1)] := by
  unfold setup_port
  simp [h]

/-- On LINUX every CONNECTION_ERROR that follows a successful `open` comes
after a `close` of the descriptor. -/
theorem setup_port_linux_error_closes (T : SpeedTokens) (c : SerialConnection) (env : PortEnv)
    (ho : env.open_ret ≠ -1)
    (hr : (setup_port Platform.LINUX T c env).ret = ConnectionResult.CONNECTION_ERROR) :
    closes env.open_ret (setup_port Platform.LINUX T c env).trace = true := by
  revert hr
  unfold setup_port
  simp only []
  split_ifs <;> simp_all [closes]

/-- C3, the failing run: on LINUX with baud 12345, `open` returning 3 and
`tcgetattr` succeeding, `setup_port` returns BAUDRATE_UNKNOWN without closing
descriptor 3, which stays open; `start()` does the same. -/
theorem setup_port_unlisted_baud_leaves_fd_open :
    (setup_port Platform.LINUX linux_tokens (SerialConnection.create "/dev/ttyUSB0" 12345)
        ⟨3, 0, 0, 0, 0, 0⟩).ret = ConnectionResult.BAUDRATE_UNKNOWN ∧
    closes 3 (setup_port Platform.LINUX linux_tokens
        (SerialConnection.create "/dev/ttyUSB0" 12345) ⟨3, 0, 0, 0, 0, 0⟩).trace = false ∧
    (World.empty.replay (setup_port Platform.LINUX linux_tokens
        (SerialConnection.create "/dev/ttyUSB0" 12345) ⟨3, 0, 0, 0, 0, 0⟩).trace).open_fds = [3] ∧
    (start Platform.LINUX linux_tokens (SerialConnection.create "/dev/ttyUSB0" 12345)
        ⟨true, ⟨3, 0, 0, 0, 0, 0⟩, 1⟩).ret = ConnectionResult.BAUDRATE_UNKNOWN ∧
    (World.empty.replay (start Platform.LINUX linux_tokens
        (SerialConnection.create "/dev/ttyUSB0" 12345) ⟨true, ⟨3, 0, 0, 0, 0, 0⟩, 1⟩).trace).open_fds
      = [3] := by
  refine ⟨?_, ?_, ?_, ?_, ?_⟩ <;> decide

/-- C4: `start()` creates the receive thread exactly when it returns SUCCESS.
When it does not return SUCCESS the thread handle is left as it was; a failed
`open` gives CONNECTION_ERROR; a receiver that cannot be attached gives
CONNECTIONS_EXHAUSTED; and any other failure is the failure of `setup_port`. -/
theorem start_thread_iff_success (p : Platform) (T : SpeedTokens) (c : SerialConnection)
    (env : StartEnv) :
    (launches_thread (start p T c env).trace = true ↔
      (start p T c env).ret = ConnectionResult.SUCCESS) ∧
    ((start p T c env).ret ≠ ConnectionResult.SUCCESS →
      (start p T c env).conn._recv_thread = c._recv_thread) ∧
    (env.receiver_ok = true → env.port.open_ret = -1 →
      (start p T c env).ret = ConnectionResult.CONNECTION_ERROR ∧
      (start p T c env).conn._recv_thread = c._recv_thread) ∧
    (env.receiver_ok = false →
      (start p T c env).ret = ConnectionResult.CONNECTIONS_EXHAUSTED) ∧
    (env.receiver_ok = true →
      (setup_port p T { c with _mavlink_receiver := true } env.port).ret
        ≠ ConnectionResult.SUCCESS →
      (start p T c env).ret =
        (setup_port p T { c with _mavlink_receiver := true } env.port).ret) := by
  have hn := setup_port_no_thread p T { c with _mavlink_receiver := true } env.port
  have hc := setup_port_conn p T { c with _mavlink_receiver := true } env.port
  have hf := setup_port_open_failed p T { c with _mavlink_receiver := true } env.port
  rw [start_eq]
  cases hr : env.receiver_ok with
  | false => simp [launches_thread]
  | true =>
    by_cases h : (setup_port p T { c with _mavlink_receiver := true } env.port).ret
        = ConnectionResult.SUCCESS
    · simp only [h, if_true]
      refine ⟨by simp [launches_thread], by simp, ?_, by simp, by simp⟩
      intro _ ho
      have := (hf ho).1
      rw [h] at this
      cases this
    · simp only [h, if_false, if_true]
      refine ⟨?_, ?_, ?_, by simp, by simp⟩
      · simp only [launches_thread] at hn ⊢
        simp [hn, h]
      · intro _; rw [hc]
      · intro _ ho
        exact ⟨(hf ho).1, by rw [hc]⟩

/-- C4 on a device whose `open` fails: CONNECTION_ERROR, no thread created,
thread handle still null. -/
theorem start_thread_iff_success_witness :
    (start Platform.LINUX linux_tokens (SerialConnection.create "/dev/ttyFAKE" 57600)
        ⟨true, ⟨-1, 0, 0, 0, 0, 0⟩, 1⟩).ret = ConnectionResult.CONNECTION_ERROR ∧
    (start Platform.LINUX linux_tokens (SerialConnection.create "/dev/ttyFAKE" 57600)
        ⟨true, ⟨-1, 0, 0, 0, 0, 0⟩, 1⟩).conn._recv_thread = none ∧
    ¬ launches_thread (start Platform.LINUX linux_tokens
        (SerialConnection.create "/dev/ttyFAKE" 57600) ⟨true, ⟨-1, 0, 0, 0, 0, 0⟩, 1⟩).trace
      = true :=
  have h := start_thread_iff_success Platform.LINUX linux_tokens
    (SerialConnection.create "/dev/ttyFAKE" 57600) ⟨true, ⟨-1, 0, 0, 0, 0, 0⟩, 1⟩
  ⟨(h.2.2.1 rfl rfl).1, (h.2.2.1 rfl rfl).2,
   fun hl => absurd (h.1.1 hl) (by rw [(h.2.2.1 rfl rfl).1]; decide)⟩

/-! ### `send_message` -/

/-- The conversion to `int` keeps every value that fits in 32 bits. -/
theorem static_cast_int_of_fits (x : Int) (h1 : -2147483648 ≤ x) (h2 : x < 2147483648) :
    static_cast_int x = x := by
  unfold static_cast_int
  omega

/-- C5: when the framer serialises `m` to `k` bytes (`k` fits the `uint16_t`
result) and `write` returns `w` (a value that fits `int`), `send_message`
returns true exactly when the device path is non-empty, the baud rate is
non-zero and `w = k`; a short write and a failed write give false. -/
theorem send_message_true_iff {μ : Type} (ser : μ → List Byte) (c : SerialConnection)
    (m : μ) (w : Int) (hk : (ser m).length < 65536)
    (hw : -2147483648 ≤ w ∧ w < 2147483648) :
    ((send_message ser c m w).ret = true ↔
      c._serial_node ≠ "" ∧ c._baudrate ≠ 0 ∧ w = ((ser m).length : Int)) ∧
    (0 ≤ w → w < ((ser m).length : Int) → (send_message ser c m w).ret = false) ∧
    (w = -1 → (send_message ser c m w).ret = false) := by
  have hc := static_cast_int_of_fits w hw.1 hw.2
  have hm : (ser m).length % 65536 = (ser m).length := Nat.mod_eq_of_lt hk
  have key : (send_message ser c m w).ret = true ↔
      c._serial_node ≠ "" ∧ c._baudrate ≠ 0 ∧ w = ((ser m).length : Int) := by
    simp only [send_message, hc, hm]
    by_cases h1 : c._serial_node = ""
    · simp [h1]
    · by_cases h2 : c._baudrate = 0
      · simp [h1, h2]
      · by_cases h3 : w = ((ser m).length : Int)
        · simp [h1, h2, h3]
        · simp [h1, h2, h3]
  refine ⟨key, ?_, ?_⟩
  · intro _ hlt
    cases hret : (send_message ser c m w).ret with
    | false => rfl
    | true => have := (key.1 hret).2.2; omega
  · intro hneg
    cases hret : (send_message ser c m w).ret with
    | false => rfl
    | true => have := (key.1 hret).2.2; omega

/-- C5 on a three-byte message: a full write succeeds, a short write and a
failed write do not. -/
theorem send_message_true_iff_witness :
    (send_message (fun (_ : Unit) => [254, 0, 1]) (SerialConnection.create "/dev/ttyUSB0" 57600)
        () 3).ret = true ∧
    (send_message (fun (_ : Unit) => [254, 0, 1]) (SerialConnection.create "/dev/ttyUSB0" 57600)
        () 2).ret = false ∧
    (send_message (fun (_ : Unit) => [254, 0, 1]) (SerialConnection.create "/dev/ttyUSB0" 57600)
        () (-1)).ret = false :=
  ⟨(send_message_true_iff (fun (_ : Unit) => [254, 0, 1])
      (SerialConnection.create "/dev/ttyUSB0" 57600) () 3 (by decide) (by decide)).1.2
      ⟨by decide, by decide, rfl⟩,
   (send_message_true_iff (fun (_ : Unit) => [254, 0, 1])
      (SerialConnection.create "/dev/ttyUSB0" 57600) () 2 (by decide) (by decide)).2.1
      (by decide) (by decide),
   (send_message_true_iff (fun (_ : Unit) => [254, 0, 1])
      (SerialConnection.create "/dev/ttyUSB0" 57600) () (-1) (by decide) (by decide)).2.2 rfl⟩

/-! ### `stop` -/

/-- C6: `stop()` returns SUCCESS in every state; a second `stop()` returns
SUCCESS again, joins no thread and leaves the object as the first call left
it: termination flag set, no receive thread, receiver torn down. -/
theorem stop_idempotent (c : SerialConnection) :
    (stop c).ret = ConnectionResult.SUCCESS ∧
    (stop (stop c).conn).ret = ConnectionResult.SUCCESS ∧
    joins_thread (stop (stop c).conn).trace = false ∧
    (stop (stop c).conn).conn = (stop c).conn ∧
    (stop c).conn._should_exit = true ∧
    (stop c).conn._recv_thread = none ∧
    (stop c).conn._mavlink_receiver = false := by
  refine ⟨rfl, rfl, ?_, rfl, rfl, rfl, rfl⟩
  simp [stop, stop_mavlink_receiver, joins_thread]

/-- C7: on a connection that holds a receive thread `t`, `stop()` sets the
termination flag, closes the descriptor, joins `t` and tears down the
receiver, in this order, and leaves the thread handle null. -/
theorem stop_order (c : SerialConnection) (t : Nat) (h : c._recv_thread = some t) :
    (stop c).trace =
      [Event.store_should_exit, Event.os_close c._fd, Event.thread_join t,
       Event.stop_mavlink_receiver] ∧
    (stop c).conn._recv_thread = none ∧
    (stop c).conn._should_exit = true := by
  simp [stop, stop_mavlink_receiver, h]

/-- C7 on the connection that a successful `start()` leaves. -/
theorem stop_order_witness :
    (start Platform.LINUX linux_tokens (SerialConnection.create "/dev/ttyUSB0" 57600)
        ⟨true, ⟨3, 0, 0, 0, 0, 0⟩, 1⟩).conn._recv_thread = some 1 ∧
    (stop (start Platform.LINUX linux_tokens (SerialConnection.create "/dev/ttyUSB0" 57600)
        ⟨true, ⟨3, 0, 0, 0, 0, 0⟩, 1⟩).conn).trace =
      [Event.store_should_exit, Event.os_close 3, Event.thread_join 1,
       Event.stop_mavlink_receiver] ∧
    (stop (start Platform.LINUX linux_tokens (SerialConnection.create "/dev/ttyUSB0" 57600)
        ⟨true, ⟨3, 0, 0, 0, 0, 0⟩, 1⟩).conn).conn._recv_thread = none :=
  have h := stop_order (start Platform.LINUX linux_tokens
    (SerialConnection.create "/dev/ttyUSB0" 57600) ⟨true, ⟨3, 0, 0, 0, 0, 0⟩, 1⟩).conn 1
    (by decide)
  ⟨by decide, h.1, h.2.1⟩

/-! ### Descriptors and threads over sequences of calls -/

/-- Replaying `setup_port` on a world without descriptors leaves at most the
descriptor now stored in `_fd`, and touches no thread. -/
theorem setup_port_world (p : Platform) (T : SpeedTokens) (c : SerialConnection)
    (env : PortEnv) (l : List Nat) :
    ((World.replay ⟨[], l⟩ (setup_port p T c env).trace).open_fds = [] ∨
      (World.replay ⟨[], l⟩ (setup_port p T c env).trace).open_fds = [env.open_ret]) ∧
    (World.replay ⟨[], l⟩ (setup_port p T c env).trace).live_threads = l := by
  unfold setup_port
  cases p <;> (simp only []; split_ifs <;> simp_all [World.replay, World.step])

/-- A `start()` on a connection that holds nothing leaves it holding at most
`_fd` and the thread of `_recv_thread`. -/
theorem start_held {μ : Type} (p : Platform) (T : SpeedTokens) (ser : μ → List Byte)
    (s : SerialConnection × World) (env : StartEnv) (h : Clean s) :
    Held (run_call p T ser s (Call.start env)) := by
  obtain ⟨c, w⟩ := s
  obtain ⟨ho, hl⟩ := h
  simp only at ho hl
  have hw : w = ⟨[], []⟩ := by cases w; simp_all
  subst hw
  have hs := setup_port_world p T { c with _mavlink_receiver := true } env.port []
  have hc := setup_port_conn p T { c with _mavlink_receiver := true } env.port
  simp only [run_call, Held]
  rw [start_eq]
  cases hr : env.receiver_ok with
  | false => simp [World.replay, World.step]
  | true =>
    by_cases h : (setup_port p T { c with _mavlink_receiver := true } env.port).ret
        = ConnectionResult.SUCCESS
    · simp only [h, if_true, World.replay, List.foldl_cons, List.foldl_append, World.step,
        List.foldl_nil] at hs ⊢
      rw [hc]
      simp [hs.2]
      exact hs.1
    · simp only [h, if_false, if_true, World.replay, List.foldl_cons, World.step] at hs ⊢
      rw [hc]
      simp [hs.2]
      exact hs.1

/-- Neither the object nor what it holds is changed by `send_message`. -/
theorem send_message_keeps {μ : Type} (ser : μ → List Byte) (c : SerialConnection) (m : μ)
    (x : Int) (w : World) :
    (send_message ser c m x).conn = c ∧ w.replay (send_message ser c m x).trace = w := by
  unfold send_message
  simp only []
  split_ifs <;> simp [World.replay, World.step]

/-- After `stop()` a connection that held at most `_fd` and its thread holds
nothing. -/
theorem stop_clean {μ : Type} (p : Platform) (T : SpeedTokens) (ser : μ → List Byte)
    (s : SerialConnection × World) (h : Held s) :
    Clean (run_call p T ser s (Call.stop : Call μ)) := by
  obtain ⟨c, w⟩ := s
  obtain ⟨ho, hl⟩ := h
  simp only at ho hl
  simp only [run_call, Clean, stop, stop_mavlink_receiver, World.replay]
  cases ht : c._recv_thread with
  | none =>
    rw [ht] at hl
    rcases ho with ho | ho <;> simp_all [World.step]
  | some t =>
    rw [ht] at hl
    rcases ho with ho | ho <;> rcases hl with hl | hl <;> simp_all [World.step]

/-- Holding nothing is a case of holding at most `_fd` and the thread. -/
theorem clean_held (s : SerialConnection × World) (h : Clean s) : Held s :=
  ⟨Or.inl h.1, Or.inl h.2⟩

/-- Calls in which `start()` is not repeated before a `stop()` keep the
connection holding at most `_fd` and the thread of `_recv_thread`. -/
theorem run_calls_held {μ : Type} (p : Platform) (T : SpeedTokens) (ser : μ → List Byte)
    (calls : List (Call μ)) :
    ∀ (started : Bool) (s : SerialConnection × World),
      starts_separated started calls = true → Held s → (started = false → Clean s) →
      Held (run_calls p T ser s calls) := by
  induction calls with
  | nil => intro _ s _ h _; simpa [run_calls] using h
  | cons call cs ih =>
    intro started s hsep hh hcl
    simp only [run_calls, List.foldl_cons]
    cases call with
    | start env =>
      simp only [starts_separated, Bool.and_eq_true, Bool.not_eq_true'] at hsep
      exact ih true _ hsep.2 (start_held p T ser s env (hcl hsep.1)) (by simp)
    | send_message m x =>
      simp only [starts_separated] at hsep
      have hk := send_message_keeps ser s.1 m x s.2
      have he : run_call p T ser s (Call.send_message m x) = s := by
        simp only [run_call]
        rw [hk.1, hk.2]
      rw [he]
      exact ih started s hsep hh hcl
    | stop =>
      simp only [starts_separated] at hsep
      have hc := stop_clean p T ser s hh
      exact ih false _ hsep (clean_held _ hc) (fun _ => hc)


/-- C9, refuted as stated: two successful `start()` calls in a row leave the
connection with two open descriptors and two unjoined receive threads. -/
theorem start_twice_two_handles :
    (run_calls Platform.LINUX linux_tokens (fun (_ : Unit) => [254, 0, 1])
        (SerialConnection.create "/dev/ttyUSB0" 57600, World.empty)
        [Call.start ⟨true, ⟨3, 0, 0, 0, 0, 0⟩, 1⟩, Call.start ⟨true, ⟨4, 0, 0, 0, 0, 0⟩, 2⟩]).2
      = ⟨[4, 3], [2, 1]⟩ ∧
    ¬ (run_calls Platform.LINUX linux_tokens (fun (_ : Unit) => [254, 0, 1])
        (SerialConnection.create "/dev/ttyUSB0" 57600, World.empty)
        [Call.start ⟨true, ⟨3, 0, 0, 0, 0, 0⟩, 1⟩,
         Call.start ⟨true, ⟨4, 0, 0, 0, 0, 0⟩, 2⟩]).2.open_fds.length ≤ 1 ∧
    ¬ (run_calls Platform.LINUX linux_tokens (fun (_ : Unit) => [254, 0, 1])
        (SerialConnection.create "/dev/ttyUSB0" 57600, World.empty)
        [Call.start ⟨true, ⟨3, 0, 0, 0, 0, 0⟩, 1⟩,
         Call.start ⟨true, ⟨4, 0, 0, 0, 0, 0⟩, 2⟩]).2.live_threads.length ≤ 1 := by
  refine ⟨?_, ?_, ?_⟩ <;> decide

/-- C9, amended: in every state reached from a freshly constructed connection
by a sequence of `start()`, `send_message()` and `stop()` calls in which no
`start()` is called again before a `stop()`, the connection holds at most one
open descriptor and at most one unjoined receive thread. -/
theorem one_handle_one_thread {μ : Type} (p : Platform) (T : SpeedTokens)
    (ser : μ → List Byte) (path : String) (baudrate : Int) (calls : List (Call μ))
    (h : starts_separated false calls = true) :
    (run_calls p T ser (SerialConnection.create path baudrate, World.empty) calls).2.open_fds.length
      ≤ 1 ∧
    (run_calls p T ser (SerialConnection.create path baudrate, World.empty)
      calls).2.live_threads.length ≤ 1 := by
  have hc : Clean (SerialConnection.create path baudrate, World.empty) := ⟨rfl, rfl⟩
  have hh := run_calls_held p T ser calls false _ h (clean_held _ hc) (fun _ => hc)
  obtain ⟨ho, hl⟩ := hh
  constructor
  · rcases ho with ho | ho <;> simp [ho]
  · rcases hl with hl | hl
    · simp [hl]
    · rw [hl]
      cases (run_calls p T ser (SerialConnection.create path baudrate, World.empty)
        calls).1._recv_thread <;> simp

/-- C9 amended, on start, send, stop, start: one descriptor and one thread at
the end. -/
theorem one_handle_one_thread_witness :
    starts_separated false
      [Call.start ⟨true, ⟨3, 0, 0, 0, 0, 0⟩, 1⟩, Call.send_message () 3, Call.stop,
       Call.start ⟨true, ⟨4, 0, 0, 0, 0, 0⟩, 2⟩] = true ∧
    (run_calls Platform.LINUX linux_tokens (fun (_ : Unit) => [254, 0, 1])
        (SerialConnection.create "/dev/ttyUSB0" 57600, World.empty)
        [Call.start ⟨true, ⟨3, 0, 0, 0, 0, 0⟩, 1⟩, Call.send_message () 3, Call.stop,
         Call.start ⟨true, ⟨4, 0, 0, 0, 0, 0⟩, 2⟩]).2.open_fds.length ≤ 1 ∧
    (run_calls Platform.LINUX linux_tokens (fun (_ : Unit) => [254, 0, 1])
        (SerialConnection.create "/dev/ttyUSB0" 57600, World.empty)
        [Call.start ⟨true, ⟨3, 0, 0, 0, 0, 0⟩, 1⟩, Call.send_message () 3, Call.stop,
         Call.start ⟨true, ⟨4, 0, 0, 0, 0, 0⟩, 2⟩]).2.live_threads.length ≤ 1 :=
  ⟨by decide,
   one_handle_one_thread Platform.LINUX linux_tokens (fun (_ : Unit) => [254, 0, 1])
     "/dev/ttyUSB0" 57600 _ (by decide)⟩


/-! ### The receive loop -/

/-- More fuel does not change what the inner loop yields. -/
theorem parse_loop_mono {σ μ : Type} (R : MAVLinkReceiver σ μ) (k : Nat) :
    ∀ (k2 : Nat) (st : σ) (x : σ × List μ), k ≤ k2 → parse_loop R k st = some x →
      parse_loop R k2 st = some x := by
  induction k with
  | zero => intro k2 st x _ h; simp [parse_loop] at h
  | succ k ih =>
    intro k2 st x hle h
    obtain ⟨j, rfl⟩ : ∃ j, k2 = j + 1 := ⟨k2 - 1, by omega⟩
    have hkj : k ≤ j := by omega
    rw [parse_loop] at h ⊢
    rcases hp : R.parse_message st with ⟨b, st1⟩
    rw [hp] at h
    cases b with
    | false => simpa using h
    | true =>
      simp only at h ⊢
      cases hq : parse_loop R k st1 with
      | none => rw [hq] at h; simp at h
      | some y =>
        rw [hq] at h
        rw [ih j st1 y hkj hq]
        exact h

/-- What the inner loop returns is what the framer yields. -/
theorem parse_loop_yields {σ μ : Type} (R : MAVLinkReceiver σ μ) (k : Nat) :
    ∀ (st st2 : σ) (ms : List μ), parse_loop R k st = some (st2, ms) → Yields R st ms st2 := by
  induction k with
  | zero => intro st st2 ms h; simp [parse_loop] at h
  | succ k ih =>
    intro st st2 ms h
    rw [parse_loop] at h
    rcases hp : R.parse_message st with ⟨b, st1⟩
    rw [hp] at h
    cases b with
    | false =>
      simp only [Option.some.injEq, Prod.mk.injEq] at h
      obtain ⟨rfl, rfl⟩ := h
      exact Yields.done st st1 hp
    | true =>
      simp only at h
      cases hq : parse_loop R k st1 with
      | none => rw [hq] at h; simp at h
      | some y =>
        obtain ⟨st3, ms3⟩ := y
        rw [hq] at h
        simp only [Option.some.injEq, Prod.mk.injEq] at h
        obtain ⟨rfl, rfl⟩ := h
        exact Yields.more st st1 st3 ms3 hp (ih st1 st3 ms3 hq)

/-- The messages a framer yields from a state are determined by the state. -/
theorem Yields.unique {σ μ : Type} (R : MAVLinkReceiver σ μ) (st st1 st2 : σ)
    (ms1 ms2 : List μ) (h1 : Yields R st ms1 st1) (h2 : Yields R st ms2 st2) :
    ms1 = ms2 ∧ st1 = st2 := by
  induction h1 generalizing ms2 st2 with
  | done st sta h =>
    cases h2 with
    | done _ _ h' => rw [h] at h'; simp only [Prod.mk.injEq, true_and] at h'; exact ⟨rfl, h'⟩
    | more _ _ _ _ h' _ => rw [h] at h'; simp at h'
  | more st sta stb ms h rest ih =>
    cases h2 with
    | done _ _ h' => rw [h] at h'; simp at h'
    | more _ stc _ ms' h' rest' =>
      rw [h] at h'
      simp only [Prod.mk.injEq, true_and] at h'
      subst h'
      obtain ⟨rfl, rfl⟩ := ih _ _ rest'
      exact ⟨rfl, rfl⟩

/-- The conversion to `int` keeps the length of a chunk. -/
theorem is_chunk_cast (r : ReadResult) (h : r.is_chunk) :
    static_cast_int r.ret = r.ret ∧ ¬ (r.ret > BUFFER_SIZE ∨ r.ret = 0) ∧
    r.data.length = r.ret.toNat := by
  obtain ⟨h1, h2, h3⟩ := h
  refine ⟨static_cast_int_of_fits _ (by omega) (by omega), ?_, by omega⟩
  unfold BUFFER_SIZE
  omega

/-- One iteration on a chunk: the chunk is fed once, unmodified, and the
messages the inner loop returns are delivered. -/
theorem receive_iteration_chunk {σ μ : Type} (R : MAVLinkReceiver σ μ) (fuel : Nat)
    (s : RecvState σ μ) (r : ReadResult) (h : r.is_chunk) :
    receive_iteration R fuel s r =
      (parse_loop R fuel
        (R.set_new_datagram s.receiver (r.data ++ s.buffer.drop r.data.length) r.ret)).map
        fun x => { receiver := x.1, buffer := r.data ++ s.buffer.drop r.data.length,
                   fed := s.fed ++ [(r.data ++ s.buffer.drop r.data.length, r.ret)],
                   delivered := s.delivered ++ x.2 } := by
  obtain ⟨hc, hg, _⟩ := is_chunk_cast r h
  unfold receive_iteration
  simp only [hc, hg, if_false]
  cases parse_loop R fuel
    (R.set_new_datagram s.receiver (r.data ++ s.buffer.drop r.data.length) r.ret) <;> rfl

/-- The bytes the framer sees of a chunk are the bytes read. -/
theorem chunk_of_read (r : ReadResult) (h : r.is_chunk) (rest : List Byte) :
    chunk_of (r.data ++ rest, r.ret) = r.data := by
  obtain ⟨_, _, hl⟩ := is_chunk_cast r h
  simp [chunk_of, ← hl]

/-- More fuel does not change what the receive loop does. -/
theorem receive_mono {σ μ : Type} (R : MAVLinkReceiver σ μ) (k k2 : Nat) (hle : k ≤ k2)
    (reads : List ReadResult) :
    ∀ (s out : RecvState σ μ), receive R k s reads = some out →
      receive R k2 s reads = some out := by
  induction reads with
  | nil => intro s out h; simpa [receive] using h
  | cons r rs ih =>
    intro s out h
    rw [receive] at h ⊢
    have hi : ∀ s1, receive_iteration R k s r = some s1 →
        receive_iteration R k2 s r = some s1 := by
      intro s1 h1
      unfold receive_iteration at h1 ⊢
      simp only at h1 ⊢
      split_ifs at h1 ⊢ with hg
      · exact h1
      · cases hq : parse_loop R k (R.set_new_datagram s.receiver
            (r.data ++ s.buffer.drop r.data.length) (static_cast_int r.ret)) with
        | none => rw [hq] at h1; simp at h1
        | some y =>
          rw [hq] at h1
          rw [parse_loop_mono R k k2 _ y hle hq]
          exact h1
    cases hq : receive_iteration R k s r with
    | none => rw [hq] at h; simp at h
    | some s1 =>
      rw [hq] at h
      rw [hi s1 hq]
      exact ih s1 out h

/-- The receive loop on chunks, from any state: with enough fuel it ends,
having fed every chunk once and delivered what the framer yields. -/
theorem receive_chunks {σ μ : Type} (R : MAVLinkReceiver σ μ)
    (hterm : ∀ st buffer n, ∃ k, (parse_loop R k (R.set_new_datagram st buffer n)).isSome = true)
    (reads : List ReadResult) :
    ∀ (s : RecvState σ μ), (∀ r ∈ reads, r.is_chunk) →
      ∃ fuel out calls yss, receive R fuel s reads = some out ∧
        out.fed = s.fed ++ calls ∧
        calls.map chunk_of = reads.map (fun r => r.data) ∧
        calls.map Prod.snd = reads.map (fun r => r.ret) ∧
        YieldsAll R s.receiver calls yss out.receiver ∧
        out.delivered = s.delivered ++ yss.flatten := by
  induction reads with
  | nil =>
    intro s _
    exact ⟨0, s, [], [], rfl, by simp, rfl, rfl, YieldsAll.nil _, by simp⟩
  | cons r rs ih =>
    intro s hr
    have hrc : r.is_chunk := hr r (List.mem_cons_self _ _)
    obtain ⟨k, hk⟩ := hterm s.receiver (r.data ++ s.buffer.drop r.data.length) r.ret
    obtain ⟨⟨st1, ms⟩, hx⟩ := Option.isSome_iff_exists.mp hk
    have hit := receive_iteration_chunk R k s r hrc
    rw [hx] at hit
    simp only [Option.map_some'] at hit
    obtain ⟨k2, out, calls, yss, hrec, hfed, hch, hlen, hy, hdel⟩ :=
      ih { receiver := st1, buffer := r.data ++ s.buffer.drop r.data.length,
           fed := s.fed ++ [(r.data ++ s.buffer.drop r.data.length, r.ret)],
           delivered := s.delivered ++ ms }
        (fun r' hr' => hr r' (List.mem_cons_of_mem _ hr'))
    refine ⟨max k k2, out, (r.data ++ s.buffer.drop r.data.length, r.ret) :: calls,
      ms :: yss, ?_, ?_, ?_, ?_, ?_, ?_⟩
    · rw [receive]
      have hit2 : receive_iteration R (max k k2) s r =
          some { receiver := st1, buffer := r.data ++ s.buffer.drop r.data.length,
                 fed := s.fed ++ [(r.data ++ s.buffer.drop r.data.length, r.ret)],
                 delivered := s.delivered ++ ms } := by
        rw [receive_iteration_chunk R (max k k2) s r hrc,
          parse_loop_mono R k (max k k2) _ _ (Nat.le_max_left _ _) hx]
        rfl
      rw [hit2]
      exact receive_mono R k2 (max k k2) (Nat.le_max_right _ _) rs _ out hrec
    · simpa using hfed
    · simp only [List.map_cons, hch, chunk_of_read r hrc]
    · simp only [List.map_cons, hlen]
    · exact YieldsAll.cons _ st1 _ _ _ ms yss (parse_loop_yields R k _ _ _ hx) hy
    · simpa using hdel

/-! ### The example framer -/

/-- A scan that finds no message has consumed the datagram without one. -/
theorem scan_none {π μ : Type} (P : CharParser π μ) (d : List Byte) :
    ∀ (p p1 : π) (rest : List Byte), scan P p d = (none, p1, rest) →
      decode P p d = [] ∧ final_status P p d = p1 := by
  induction d with
  | nil => intro p p1 rest h; simp [scan] at h; simp [decode, final_status, h.1]
  | cons b bs ih =>
    intro p p1 rest h
    rw [scan] at h
    rw [decode, final_status]
    rcases hp : P.parse_char p b with ⟨q, o⟩
    rw [hp] at h
    cases o with
    | none => simpa using ih q p1 rest h
    | some m => simp at h

/-- A scan that finds a message stops right behind it. -/
theorem scan_some {π μ : Type} (P : CharParser π μ) (d : List Byte) :
    ∀ (p p1 : π) (m : μ) (rest : List Byte), scan P p d = (some m, p1, rest) →
      rest.length < d.length ∧ decode P p d = m :: decode P p1 rest ∧
      final_status P p d = final_status P p1 rest := by
  induction d with
  | nil => intro p p1 m rest h; simp [scan] at h
  | cons b bs ih =>
    intro p p1 m rest h
    rw [scan] at h
    rw [decode, final_status]
    rcases hp : P.parse_char p b with ⟨q, o⟩
    rw [hp] at h
    cases o with
    | none =>
      obtain ⟨h1, h2, h3⟩ := ih q p1 m rest h
      exact ⟨by simp only [List.length_cons]; omega, h2, h3⟩
    | some m1 =>
      simp only [Prod.mk.injEq, Option.some.injEq] at h
      obtain ⟨rfl, rfl, rfl⟩ := h
      simp

/-- With more fuel than bytes, the inner loop over the example framer comes
to a stop, has parsed the whole datagram and returns its messages in stream
order. -/
theorem parse_loop_stream {π μ : Type} (P : CharParser π μ) (fuel : Nat) :
    ∀ (p : π) (d : List Byte) (last : μ), d.length < fuel →
      ∃ last1, parse_loop (stream_framer P) fuel ⟨p, d, last⟩ =
        some (⟨final_status P p d, [], last1⟩, decode P p d) := by
  induction fuel with
  | zero => intro p d last h; omega
  | succ k ih =>
    intro p d last hlt
    rw [parse_loop]
    rcases hs : scan P p d with ⟨o, p1, rest⟩
    cases o with
    | none =>
      obtain ⟨h1, h2⟩ := scan_none P d p p1 rest hs
      refine ⟨last, ?_⟩
      simp [stream_framer, hs, h1, h2]
    | some m =>
      obtain ⟨h1, h2, h3⟩ := scan_some P d p p1 m rest hs
      obtain ⟨last1, hl⟩ := ih p1 rest m (by omega)
      refine ⟨last1, ?_⟩
      simp only [stream_framer, hs]
      simp only [stream_framer] at hl
      rw [hl, h2, h3]

/-- The messages of a stream cut in two are those of the first part followed
by those of the second part, parsed from where the first part ended. -/
theorem decode_append {π μ : Type} (P : CharParser π μ) (a b : List Byte) :
    ∀ (p : π), decode P p (a ++ b) = decode P p a ++ decode P (final_status P p a) b := by
  induction a with
  | nil => intro p; simp [decode, final_status]
  | cons x xs ih =>
    intro p
    simp only [List.cons_append, decode, final_status]
    rcases hp : P.parse_char p x with ⟨q, o⟩
    cases o <;> simp [ih q]

/-- The parser state after a stream cut in two. -/
theorem final_status_append {π μ : Type} (P : CharParser π μ) (a b : List Byte) :
    ∀ (p : π), final_status P p (a ++ b) = final_status P (final_status P p a) b := by
  induction a with
  | nil => intro p; simp [final_status]
  | cons x xs ih => intro p; rw [List.cons_append, final_status, final_status, ih]

/-- The example framer in the receive loop: the messages delivered are those
of the concatenated chunks, wherever the chunk boundaries fall. -/
theorem receive_stream {π μ : Type} (P : CharParser π μ) (reads : List ReadResult) :
    ∀ (s : RecvState (StreamState π μ) μ), (∀ r ∈ reads, r.is_chunk) →
      ∃ out, receive (stream_framer P) 2049 s reads = some out ∧
        out.delivered = s.delivered ++ decode P s.receiver.status (stream_of reads) ∧
        out.receiver.status = final_status P s.receiver.status (stream_of reads) := by
  induction reads with
  | nil => intro s _; exact ⟨s, rfl, by simp [stream_of, decode], by simp [stream_of, final_status]⟩
  | cons r rs ih =>
    intro s hr
    have hrc : r.is_chunk := hr r (List.mem_cons_self _ _)
    obtain ⟨hc, hg, hl⟩ := is_chunk_cast r hrc
    have hlen : r.data.length < 2049 := by
      have := hrc.2.1; have := hrc.2.2; omega
    have hmod : (r.ret % 4294967296).toNat = r.data.length := by
      have := hrc.1; have := hrc.2.1; omega
    obtain ⟨last1, hp⟩ := parse_loop_stream P 2049 s.receiver.status r.data
      s.receiver.last_message hlen
    obtain ⟨out, hrec, hdel, hst⟩ := ih
      { receiver := ⟨final_status P s.receiver.status r.data, [], last1⟩,
        buffer := r.data ++ s.buffer.drop r.data.length,
        fed := s.fed ++ [(r.data ++ s.buffer.drop r.data.length, r.ret)],
        delivered := s.delivered ++ decode P s.receiver.status r.data }
      (fun r' hr' => hr r' (List.mem_cons_of_mem _ hr'))
    refine ⟨out, ?_, ?_, ?_⟩
    · rw [receive]
      have hit : receive_iteration (stream_framer P) 2049 s r =
          some { receiver := ⟨final_status P s.receiver.status r.data, [], last1⟩,
                 buffer := r.data ++ s.buffer.drop r.data.length,
                 fed := s.fed ++ [(r.data ++ s.buffer.drop r.data.length, r.ret)],
                 delivered := s.delivered ++ decode P s.receiver.status r.data } := by
        unfold receive_iteration
        simp only [hc, hg, if_false]
        have hset : (stream_framer P).set_new_datagram s.receiver
            (r.data ++ s.buffer.drop r.data.length) r.ret =
            ⟨s.receiver.status, r.data, s.receiver.last_message⟩ := by
          simp [stream_framer, hmod]
        rw [hset, hp]
      rw [hit]
      exact hrec
    · rw [hdel]
      simp only [stream_of, List.map_cons, List.flatten_cons] at *
      rw [decode_append, List.append_assoc]
    · rw [hst]
      simp only [stream_of, List.map_cons, List.flatten_cons] at *
      rw [final_status_append]

/-- The inner loop over the example framer always ends. -/
theorem stream_framer_terminates {π μ : Type} (P : CharParser π μ) (st : StreamState π μ)
    (buffer : List Byte) (n : Int) :
    ∃ k, (parse_loop (stream_framer P) k
      ((stream_framer P).set_new_datagram st buffer n)).isSome = true := by
  obtain ⟨last1, h⟩ := parse_loop_stream P
    ((buffer.take (n % 4294967296).toNat).length + 1) st.status
    (buffer.take (n % 4294967296).toNat) st.last_message (Nat.lt_succ_self _)
  refine ⟨(buffer.take (n % 4294967296).toNat).length + 1, ?_⟩
  have hset : (stream_framer P).set_new_datagram st buffer n =
      ⟨st.status, buffer.take (n % 4294967296).toNat, st.last_message⟩ := rfl
  rw [hset, h]
  rfl

/-- C8: for reads that each return 1 to 2048 bytes and a framer whose
`parse_message` answers `false` after finitely many calls on every chunk, the
receive loop ends, has called `set_new_datagram` once per read, in read order,
with exactly the bytes and the length read, and has delivered exactly the
messages the framer yields, chunk after chunk, in the order it yields them.
For a framer that parses byte by byte and keeps its state across chunks the
messages delivered are those of the concatenated stream; so the chunks
`bytesOf m1 ++ pre` and `suf`, with `bytesOf m2 = pre ++ suf`, deliver exactly
`m1` then `m2`. -/
theorem receive_in_order {σ μ : Type} (R : MAVLinkReceiver σ μ) (st0 : σ)
    (buffer0 : List Byte) (reads : List ReadResult)
    (hreads : ∀ r ∈ reads, r.is_chunk)
    (hterm : ∀ st buffer n, ∃ k,
      (parse_loop R k (R.set_new_datagram st buffer n)).isSome = true) :
    (∃ fuel out yss, receive R fuel (RecvState.init st0 buffer0) reads = some out ∧
      out.fed.map chunk_of = reads.map (fun r => r.data) ∧
      out.fed.map Prod.snd = reads.map (fun r => r.ret) ∧
      YieldsAll R st0 out.fed yss out.receiver ∧
      out.delivered = yss.flatten) ∧
    (∀ (π : Type) (P : CharParser π μ) (s0 : StreamState π μ),
      ∃ out, receive (stream_framer P) 2049 (RecvState.init s0 buffer0) reads = some out ∧
        out.delivered = decode P s0.status (stream_of reads)) ∧
    (∀ (π : Type) (P : CharParser π μ) (s0 : StreamState π μ) (bytesOf : μ → List Byte)
      (m1 m2 : μ) (pre suf : List Byte),
      bytesOf m2 = pre ++ suf →
      decode P s0.status (bytesOf m1 ++ bytesOf m2) = [m1, m2] →
      1 ≤ (bytesOf m1 ++ pre).length → (bytesOf m1 ++ pre).length ≤ 2048 →
      1 ≤ suf.length → suf.length ≤ 2048 →
      ∃ out, receive (stream_framer P) 2049 (RecvState.init s0 buffer0)
          [⟨((bytesOf m1 ++ pre).length : Int), bytesOf m1 ++ pre⟩,
           ⟨(suf.length : Int), suf⟩] = some out ∧
        out.delivered = [m1, m2]) := by
  refine ⟨?_, ?_, ?_⟩
  · obtain ⟨fuel, out, calls, yss, h1, h2, h3, h4, h5, h6⟩ :=
      receive_chunks R hterm reads (RecvState.init st0 buffer0) hreads
    simp only [RecvState.init, List.nil_append] at h2 h5 h6
    subst h2
    exact ⟨fuel, out, yss, h1, h3, h4, h5, h6⟩
  · intro π P s0
    obtain ⟨out, h1, h2, _⟩ := receive_stream P reads (RecvState.init s0 buffer0) hreads
    exact ⟨out, h1, by simpa [RecvState.init] using h2⟩
  · intro π P s0 bytesOf m1 m2 pre suf hsplit hdec ha1 ha2 hb1 hb2
    have hchunks : ∀ r ∈ [(⟨((bytesOf m1 ++ pre).length : Int), bytesOf m1 ++ pre⟩ : ReadResult),
        ⟨(suf.length : Int), suf⟩], r.is_chunk := by
      intro r hr
      simp only [List.mem_cons, List.mem_singleton, List.not_mem_nil, or_false] at hr
      rcases hr with rfl | rfl
      · refine ⟨?_, ?_, rfl⟩
        · show (1 : Int) ≤ ((bytesOf m1 ++ pre).length : Int)
          exact_mod_cast ha1
        · show ((bytesOf m1 ++ pre).length : Int) ≤ 2048
          exact_mod_cast ha2
      · refine ⟨?_, ?_, rfl⟩
        · show (1 : Int) ≤ (suf.length : Int)
          exact_mod_cast hb1
        · show (suf.length : Int) ≤ 2048
          exact_mod_cast hb2
    obtain ⟨out, h1, h2, _⟩ := receive_stream P _ (RecvState.init s0 buffer0) hchunks
    refine ⟨out, h1, ?_⟩
    rw [h2]
    simp only [RecvState.init, stream_of, List.map_cons, List.map_nil, List.flatten_cons,
      List.flatten_nil, List.append_nil, List.nil_append, List.append_assoc]
    rw [← hsplit, hdec]

/-- C8 on the length-framed messages `[10, 20]` and `[30, 40, 50]`, read as
the chunks `2 10 20 3 30` and `40 50`: the sink receives the two messages in
this order. -/
theorem receive_in_order_witness :
    (∀ r ∈ [(⟨5, [2, 10, 20, 3, 30]⟩ : ReadResult), ⟨2, [40, 50]⟩], r.is_chunk) ∧
    ∃ out, receive (stream_framer length_framed) 2049
        (RecvState.init ⟨none, [], []⟩ (List.replicate 2048 0))
        [⟨5, [2, 10, 20, 3, 30]⟩, ⟨2, [40, 50]⟩] = some out ∧
      out.delivered = [[10, 20], [30, 40, 50]] :=
  have hc : ∀ r ∈ [(⟨5, [2, 10, 20, 3, 30]⟩ : ReadResult), ⟨2, [40, 50]⟩], r.is_chunk := by
    intro r hr
    simp only [List.mem_cons, List.mem_singleton, List.not_mem_nil, or_false] at hr
    rcases hr with rfl | rfl <;> (unfold ReadResult.is_chunk; decide)
  ⟨hc,
   (receive_in_order (stream_framer length_framed) ⟨none, [], []⟩ (List.replicate 2048 0)
      [⟨5, [2, 10, 20, 3, 30]⟩, ⟨2, [40, 50]⟩] hc
      (stream_framer_terminates length_framed)).2.2
      _ length_framed ⟨none, [], []⟩ (fun m => m.length :: m) [10, 20] [30, 40, 50]
      [3, 30] [40, 50] rfl (by decide) (by decide) (by decide) (by decide) (by decide)⟩

/-- An iteration whose `read` returns 0 or more than the buffer holds feeds
nothing to the framer and delivers nothing. -/
theorem receive_iteration_skip {σ μ : Type} (R : MAVLinkReceiver σ μ) (fuel : Nat)
    (s : RecvState σ μ) (r : ReadResult)
    (h : static_cast_int r.ret > BUFFER_SIZE ∨ static_cast_int r.ret = 0) :
    receive_iteration R fuel s r =
      some { s with buffer := r.data ++ s.buffer.drop r.data.length } := by
  unfold receive_iteration
  simp only [h, if_true]

/-- C10, the failing run: when `read` returns the error value `-1` the
iteration calls `set_new_datagram` with the unchanged buffer and the length
`-1`, runs the inner loop and delivers what the framer yields.  With the
example framer, after a read of the frame `2 10 20`, a failed read delivers
the message `[10, 20]` a second time. -/
theorem receive_iteration_read_error {σ μ : Type} (R : MAVLinkReceiver σ μ) (fuel : Nat)
    (s : RecvState σ μ) :
    receive_iteration R fuel s ⟨-1, []⟩ =
      (parse_loop R fuel (R.set_new_datagram s.receiver s.buffer (-1))).map
        (fun x => { receiver := x.1, buffer := s.buffer, fed := s.fed ++ [(s.buffer, -1)],
                    delivered := s.delivered ++ x.2 }) ∧
    (receive (stream_framer length_framed) 2049
        (RecvState.init ⟨none, [], []⟩ (List.replicate 2048 255))
        [⟨3, [2, 10, 20]⟩, ⟨-1, []⟩]).map
      (fun out => (out.fed.map Prod.snd, out.delivered.take 2))
      = some ([3, -1], [[10, 20], [10, 20]]) := by
  constructor
  · unfold receive_iteration
    have hc : static_cast_int (-1) = -1 := by decide
    have hg : ¬ ((-1 : Int) > BUFFER_SIZE ∨ (-1 : Int) = 0) := by decide
    simp only [hc, hg, if_false, List.length_nil, List.drop_zero, List.nil_append]
    cases parse_loop R fuel (R.set_new_datagram s.receiver s.buffer (-1)) <;> rfl
  · decide

end mavsdk
